import Mathlib

set_option maxHeartbeats 1000000

namespace Shared3D

/-! Shallow embedding of the model-lifecycle, caching, camera-framing,
transition and pointer-control subsystem of the shared-3d repository.
Each definition carries a doc comment naming the source file and lines
it is translated from. -/

/-- Association-list lookup keyed by decidable equality: returns the value of
the first pair whose key matches.  Models `Map.get` of a JS `Map` and
`get(key)` of the idb-keyval store (keys are unique in both). -/
def lookupA {κ α : Type} [DecidableEq κ] : List (κ × α) → κ → Option α
  | [], _ => none
  | (k0, v) :: rest, k => if k0 = k then some v else lookupA rest k

/-- Association-list update: replaces the value of the first pair whose key
matches, or appends a fresh pair.  Models `Map.set` / idb-keyval `set`. -/
def setA {κ α : Type} [DecidableEq κ] : List (κ × α) → κ → α → List (κ × α)
  | [], k, v => [(k, v)]
  | (k0, v0) :: rest, k, v =>
    if k0 = k then (k, v) :: rest else (k0, v0) :: setA rest k v

/-- Association-list deletion: removes every pair whose key matches.
Models idb-keyval `del` (keys are unique, so at most one pair is removed). -/
def delA {κ α : Type} [DecidableEq κ] (l : List (κ × α)) (k : κ) : List (κ × α) :=
  l.filter (fun p => decide (p.1 ≠ k))

theorem lookupA_setA_self {κ α : Type} [DecidableEq κ] (l : List (κ × α)) (k : κ) (v : α) :
    lookupA (setA l k v) k = some v := by
  induction l with
  | nil => simp [setA, lookupA]
  | cons p rest ih =>
    by_cases h : p.1 = k
    · simp [setA, h, lookupA]
    · simp [setA, h, lookupA, ih]

theorem lookupA_setA_ne {κ α : Type} [DecidableEq κ] (l : List (κ × α)) (k k' : κ) (v : α)
    (h : k' ≠ k) : lookupA (setA l k v) k' = lookupA l k' := by
  have h2 : k ≠ k' := Ne.symm h
  induction l with
  | nil => simp [setA, lookupA, h2]
  | cons p rest ih =>
    obtain ⟨k0, v0⟩ := p
    by_cases hp : k0 = k
    · subst hp
      simp [setA, lookupA, h2]
    · simp [setA, hp, lookupA, ih]

theorem lookupA_eq_some_of_mem {κ α : Type} [DecidableEq κ] {l : List (κ × α)} {k : κ} {v : α}
    (hnd : (l.map Prod.fst).Nodup) (hm : (k, v) ∈ l) : lookupA l k = some v := by
  induction l with
  | nil => cases hm
  | cons p rest ih =>
    rcases List.mem_cons.mp hm with h | h
    · cases h
      simp [lookupA]
    · have hk : p.1 ≠ k := by
        intro he
        have : k ∈ rest.map Prod.fst := List.mem_map.mpr ⟨(k, v), h, rfl⟩
        rw [List.map_cons, List.nodup_cons] at hnd
        exact hnd.1 (he ▸ this)
      simp only [lookupA, hk, if_neg hk]
      exact ih (List.nodup_cons.mp (by simpa using hnd)).2 h

theorem mem_of_lookupA_eq_some {κ α : Type} [DecidableEq κ] {l : List (κ × α)} {k : κ} {v : α}
    (h : lookupA l k = some v) : (k, v) ∈ l := by
  induction l with
  | nil => simp [lookupA] at h
  | cons p rest ih =>
    obtain ⟨k0, v0⟩ := p
    by_cases hp : k0 = k
    · subst hp
      rw [lookupA, if_pos rfl] at h
      cases h
      exact List.mem_cons_self _ _
    · rw [lookupA, if_neg hp] at h
      exact List.mem_cons_of_mem _ (ih h)

theorem mem_delA {κ α : Type} [DecidableEq κ] (l : List (κ × α)) (k0 k : κ) (v : α) :
    (k, v) ∈ delA l k0 ↔ (k, v) ∈ l ∧ k ≠ k0 := by
  simp [delA, List.mem_filter]

theorem nodup_delA {κ α : Type} [DecidableEq κ] (l : List (κ × α)) (k : κ)
    (hnd : (l.map Prod.fst).Nodup) : ((delA l k).map Prod.fst).Nodup :=
  ((List.filter_sublist l).map Prod.fst).nodup hnd

/-- Keys of the idb-keyval store.  IndexedDB keys may be strings or numbers;
`clearExpiredModels` filters on `typeof key === "string"`, so both shapes are
modelled. -/
inductive IDBKey where
  | str (s : String)
  | num (n : Int)
deriving DecidableEq, Repr

/-- Values held in the idb-keyval store: either a cached model entry
`{ data, timestamp }` as written by `CacheManager` (bytes modelled as a list
of naturals, the timestamp in milliseconds), or some unrelated value stored
under another key (modelled abstractly; such a value has no `timestamp`
field, so in JS its age computes to `NaN` and every age comparison on it is
false). -/
inductive IDBValue where
  | modelEntry (data : List Nat) (timestamp : Int)
  | other (tag : Nat)
deriving DecidableEq, Repr

/-- The idb-keyval store: an IndexedDB-backed key-value store with unique
keys, modelled as an association list. -/
abbrev KVStore : Type := List (IDBKey × IDBValue)

/-- The Cache Storage API store named `3d-models`, mapping a URL to the bytes
of the cached `Response`. -/
abbrev CacheStorage : Type := List (String × List Nat)

/-- Milliseconds per day, the divisor `1000 * 60 * 60 * 24` used by
`CacheManager.getModel` and `CacheManager.clearExpiredModels`
(src/src/core/CacheManager.ts lines 15 and 61). -/
def msPerDay : ℚ := 1000 * 60 * 60 * 24

/-- Age of a cache entry in days, `(Date.now() - cached.timestamp) / (1000 * 60 * 60 * 24)`
(src/src/core/CacheManager.ts line 15), with the float division modelled as
exact rational division. -/
def ageInDays (now ts : Int) : ℚ := ((now - ts : Int) : ℚ) / msPerDay

/-- Which awaited storage operation inside `CacheManager.getModel` throws, if
any; the surrounding try/catch turns any such throw into a `null` result
(src/src/core/CacheManager.ts lines 32-35).  `ok` means no operation fails. -/
inductive GetFail where
  | ok
  | kvGet
  | csOpen
  | csMatch
  | bodyRead
  | kvSet
deriving DecidableEq, Repr

namespace CacheManager

/-- Fallback half of `CacheManager.getModel` (src/src/core/CacheManager.ts
lines 21-31): after the IndexedDB entry was absent or stale, open the
`3d-models` cache, match the url; on a hit read the response body, backfill
IndexedDB under key `model:` ++ url with a fresh timestamp and return the
bytes; otherwise return null.  A failing operation throws, which the catch
at lines 32-35 turns into `(none, kv)` with the store unchanged. -/
def getModelFallback (fail : GetFail) (now : Int) (kv : KVStore) (cs : CacheStorage)
    (url : String) : Option (List Nat) × KVStore :=
  if fail = GetFail.csOpen ∨ fail = GetFail.csMatch then (none, kv)
  else
    match lookupA cs url with
    | some data =>
        if fail = GetFail.bodyRead ∨ fail = GetFail.kvSet then (none, kv)
        else (some data, setA kv (IDBKey.str ("model:" ++ url)) (IDBValue.modelEntry data now))
    | none => (none, kv)

/-- Embedding of `CacheManager.getModel` (src/src/core/CacheManager.ts lines
9-36): read the IndexedDB entry `model:` ++ url; if present with a timestamp
younger than 7 days, return its bytes; otherwise fall through to the Cache
Storage lookup.  A value without a timestamp field (`IDBValue.other`) fails
the age test in JS (`NaN < 7` is false) and also falls through.  The whole
body is wrapped in try/catch, so a failing storage operation yields
`(none, kv)`; the function is total and never throws. -/
def getModel (fail : GetFail) (now : Int) (kv : KVStore) (cs : CacheStorage)
    (url : String) : Option (List Nat) × KVStore :=
  if fail = GetFail.kvGet then (none, kv)
  else
    match lookupA kv (IDBKey.str ("model:" ++ url)) with
    | some (IDBValue.modelEntry data ts) =>
        if ageInDays now ts < 7 then (some data, kv)
        else getModelFallback fail now kv cs url
    | some (IDBValue.other _) => getModelFallback fail now kv cs url
    | none => getModelFallback fail now kv cs url

/-- Whether `clearExpiredModels` keeps this key in its sweep list: the key is
a string starting with `model:` (src/src/core/CacheManager.ts lines 54-56).
The JS `key.startsWith("model:")` test is modelled over the character list of
the string so that it evaluates inside the kernel. -/
def isModelKey : IDBKey → Bool
  | IDBKey.str s => "model:".data.isPrefixOf s.data
  | IDBKey.num _ => false

/-- Whether the loop body of `clearExpiredModels` deletes a value: it has a
timestamp older than 30 days (src/src/core/CacheManager.ts lines 59-64).  A
value without a timestamp is never deleted (`NaN > 30` is false in JS). -/
def staleEntry (now : Int) : IDBValue → Bool
  | IDBValue.modelEntry _ ts => decide (ageInDays now ts > 30)
  | IDBValue.other _ => false

/-- One iteration of the `clearExpiredModels` loop (src/src/core/CacheManager.ts
lines 58-66): `get(key)`, and if a value with an over-30-day timestamp is
found, `del(key)`. -/
def sweepKey (now : Int) (kv : KVStore) (k : IDBKey) : KVStore :=
  match lookupA kv k with
  | some v => if staleEntry now v then delA kv k else kv
  | none => kv

/-- Embedding of `CacheManager.clearExpiredModels` (src/src/core/CacheManager.ts
lines 51-70): enumerate all keys, keep the string keys starting with
`model:`, and run the delete-if-stale loop body over them. -/
def clearExpiredModels (now : Int) (kv : KVStore) : KVStore :=
  let modelKeys := (kv.map Prod.fst).filter isModelKey
  modelKeys.foldl (sweepKey now) kv

/-- Bytes returned by a fresh IndexedDB hit, phrased after the words of the
spec: the key-value store entry exists and is younger than 7 days.  Used to
state the cache claims independently of the control flow of `getModel`. -/
def freshData (now : Int) (kv : KVStore) (url : String) : Option (List Nat) :=
  match lookupA kv (IDBKey.str ("model:" ++ url)) with
  | some (IDBValue.modelEntry data ts) => if ageInDays now ts < 7 then some data else none
  | _ => none

end CacheManager

theorem lookupA_isSome_of_mem {κ α : Type} [DecidableEq κ] {l : List (κ × α)} {k : κ} {v : α}
    (hm : (k, v) ∈ l) : ∃ w, lookupA l k = some w := by
  induction l with
  | nil => cases hm
  | cons p rest ih =>
    obtain ⟨k0, v0⟩ := p
    by_cases hp : k0 = k
    · exact ⟨v0, by rw [lookupA, if_pos hp]⟩
    · rcases List.mem_cons.mp hm with h | h
      · cases h
        exact absurd rfl hp
      · obtain ⟨w, hw⟩ := ih h
        exact ⟨w, by rw [lookupA, if_neg hp]; exact hw⟩

theorem nodup_sweepKey (now : Int) (kv : KVStore) (k0 : IDBKey)
    (hnd : (kv.map Prod.fst).Nodup) :
    ((CacheManager.sweepKey now kv k0).map Prod.fst).Nodup := by
  unfold CacheManager.sweepKey
  cases h : lookupA kv k0 with
  | none => exact hnd
  | some v =>
    by_cases hs : CacheManager.staleEntry now v = true
    · simpa [hs] using nodup_delA kv k0 hnd
    · simpa [hs] using hnd

theorem mem_sweepKey (now : Int) (kv : KVStore) (k0 k : IDBKey) (v : IDBValue)
    (hnd : (kv.map Prod.fst).Nodup) :
    (k, v) ∈ CacheManager.sweepKey now kv k0 ↔
      (k, v) ∈ kv ∧ ¬(k = k0 ∧ CacheManager.staleEntry now v = true) := by
  unfold CacheManager.sweepKey
  cases h : lookupA kv k0 with
  | none =>
    constructor
    · intro hm
      refine ⟨hm, ?_⟩
      rintro ⟨rfl, _⟩
      obtain ⟨w, hw⟩ := lookupA_isSome_of_mem hm
      rw [hw] at h
      cases h
    · exact fun hm => hm.1
  | some v0 =>
    show (k, v) ∈ (if CacheManager.staleEntry now v0 = true then delA kv k0 else kv) ↔ _
    by_cases hs : CacheManager.staleEntry now v0 = true
    · rw [if_pos hs, mem_delA]
      constructor
      · rintro ⟨hm, hne⟩
        exact ⟨hm, fun hc => hne hc.1⟩
      · rintro ⟨hm, hnc⟩
        refine ⟨hm, fun he => hnc ⟨he, ?_⟩⟩
        subst he
        have hv := lookupA_eq_some_of_mem hnd hm
        rw [h] at hv
        injection hv with hv2
        subst hv2
        exact hs
    · rw [if_neg hs]
      constructor
      · intro hm
        refine ⟨hm, ?_⟩
        rintro ⟨rfl, hstale⟩
        have hv := lookupA_eq_some_of_mem hnd hm
        rw [h] at hv
        injection hv with hv2
        subst hv2
        exact hs hstale
      · exact fun hm => hm.1

theorem mem_foldl_sweepKey (now : Int) (ks : List IDBKey) :
    ∀ (kv : KVStore), (kv.map Prod.fst).Nodup → ∀ (k : IDBKey) (v : IDBValue),
      (k, v) ∈ ks.foldl (CacheManager.sweepKey now) kv ↔
        (k, v) ∈ kv ∧ ¬(k ∈ ks ∧ CacheManager.staleEntry now v = true) := by
  induction ks with
  | nil =>
    intro kv _ k v
    simp
  | cons k0 rest ih =>
    intro kv hnd k v
    rw [List.foldl_cons, ih _ (nodup_sweepKey now kv k0 hnd) k v,
      mem_sweepKey now kv k0 k v hnd]
    constructor
    · rintro ⟨⟨hm, h1⟩, h2⟩
      refine ⟨hm, ?_⟩
      rintro ⟨hk, hs⟩
      rcases List.mem_cons.mp hk with rfl | hk2
      · exact h1 ⟨rfl, hs⟩
      · exact h2 ⟨hk2, hs⟩
    · rintro ⟨hm, hn⟩
      refine ⟨⟨hm, ?_⟩, ?_⟩
      · rintro ⟨rfl, hs⟩
        exact hn ⟨List.mem_cons_self _ _, hs⟩
      · rintro ⟨hk2, hs⟩
        exact hn ⟨List.mem_cons_of_mem _ hk2, hs⟩

/-- C9: `CacheManager.clearExpiredModels` deletes exactly the key-value store
entries whose key is a string starting with `model:` and whose timestamp is
more than 30 days old; every other entry — non-string keys, keys without the
`model:` prefix, and model entries aged 30 days or less — survives. -/
theorem C9_clearExpiredModels_exact (now : Int) (kv : KVStore)
    (hnd : (kv.map Prod.fst).Nodup) (k : IDBKey) (v : IDBValue) :
    (k, v) ∈ CacheManager.clearExpiredModels now kv ↔
      (k, v) ∈ kv ∧
        ¬(CacheManager.isModelKey k = true ∧ CacheManager.staleEntry now v = true) := by
  unfold CacheManager.clearExpiredModels
  rw [mem_foldl_sweepKey now _ kv hnd k v]
  constructor
  · rintro ⟨hm, hn⟩
    refine ⟨hm, ?_⟩
    rintro ⟨hmk, hs⟩
    exact hn ⟨List.mem_filter.mpr ⟨List.mem_map.mpr ⟨(k, v), hm, rfl⟩, hmk⟩, hs⟩
  · rintro ⟨hm, hn⟩
    refine ⟨hm, ?_⟩
    rintro ⟨hk, hs⟩
    exact hn ⟨(List.mem_filter.mp hk).2, hs⟩

/-- Example idb-keyval store for the cache sweep: model entries aged 40, 10
and 1 days at `now = 3456000000` ms, one numeric key and one string key
without the `model:` prefix. -/
def kvExample : KVStore :=
  [(IDBKey.str "model:old", IDBValue.modelEntry [1] 0),
   (IDBKey.str "model:mid", IDBValue.modelEntry [2] 2592000000),
   (IDBKey.str "model:new", IDBValue.modelEntry [3] 3369600000),
   (IDBKey.num 7, IDBValue.other 0),
   (IDBKey.str "texture:x", IDBValue.modelEntry [4] 0)]

/-- Witness for C9 at a concrete store: the 10-day-old model entry survives
the sweep and the 40-day-old model entry is deleted. -/
theorem C9_witness :
    (IDBKey.str "model:mid", IDBValue.modelEntry [2] 2592000000) ∈
        CacheManager.clearExpiredModels 3456000000 kvExample ∧
      (IDBKey.str "model:old", IDBValue.modelEntry [1] 0) ∉
        CacheManager.clearExpiredModels 3456000000 kvExample := by
  constructor
  · refine (C9_clearExpiredModels_exact 3456000000 kvExample (by decide) _ _).mpr
      ⟨by decide, ?_⟩
    rintro ⟨-, hs⟩
    revert hs
    norm_num [CacheManager.staleEntry, ageInDays, msPerDay]
  · intro hmem
    have h := (C9_clearExpiredModels_exact 3456000000 kvExample (by decide)
        (IDBKey.str "model:old") (IDBValue.modelEntry [1] 0)).mp hmem
    refine h.2 ⟨by decide, ?_⟩
    norm_num [CacheManager.staleEntry, ageInDays, msPerDay]

/-- C5: `CacheManager.getModel` returns the key-value store entry when it is
younger than 7 days; otherwise it falls back to the response-object store,
returning its bytes and backfilling the key-value store with a fresh
timestamp; if neither store has the url it returns null; and whichever
storage operation fails, it returns null with the store unchanged (the
embedding is a total function, so it never throws). -/
theorem C5_getModel_spec (fail : GetFail) (now : Int) (kv : KVStore) (cs : CacheStorage)
    (url : String) :
    (∀ d, CacheManager.freshData now kv url = some d →
        CacheManager.getModel GetFail.ok now kv cs url = (some d, kv))
  ∧ (∀ d, CacheManager.freshData now kv url = none → lookupA cs url = some d →
        CacheManager.getModel GetFail.ok now kv cs url =
          (some d, setA kv (IDBKey.str ("model:" ++ url)) (IDBValue.modelEntry d now)))
  ∧ (CacheManager.freshData now kv url = none → lookupA cs url = none →
        CacheManager.getModel GetFail.ok now kv cs url = (none, kv))
  ∧ (fail = GetFail.kvGet → CacheManager.getModel fail now kv cs url = (none, kv))
  ∧ ((fail = GetFail.csOpen ∨ fail = GetFail.csMatch) →
        CacheManager.freshData now kv url = none →
        CacheManager.getModel fail now kv cs url = (none, kv))
  ∧ (∀ d, (fail = GetFail.bodyRead ∨ fail = GetFail.kvSet) →
        CacheManager.freshData now kv url = none → lookupA cs url = some d →
        CacheManager.getModel fail now kv cs url = (none, kv)) := by
  refine ⟨?_, ?_, ?_, ?_, ?_, ?_⟩
  · intro d hd
    unfold CacheManager.freshData at hd
    unfold CacheManager.getModel
    cases hl : lookupA kv (IDBKey.str ("model:" ++ url)) with
    | none => rw [hl] at hd; cases hd
    | some v =>
      rw [hl] at hd
      cases v with
      | modelEntry data ts =>
        by_cases hage : ageInDays now ts < 7
        · simp only [if_pos hage] at hd
          injection hd with hd2
          subst hd2
          simp [hage]
        · simp [if_neg hage] at hd
      | other t => cases hd
  · intro d hfresh hcs
    unfold CacheManager.freshData at hfresh
    unfold CacheManager.getModel CacheManager.getModelFallback
    cases hl : lookupA kv (IDBKey.str ("model:" ++ url)) with
    | none => simp [hcs]
    | some v =>
      rw [hl] at hfresh
      cases v with
      | modelEntry data ts =>
        by_cases hage : ageInDays now ts < 7
        · simp [if_pos hage] at hfresh
        · simp [hage, hcs]
      | other t => simp [hcs]
  · intro hfresh hcs
    unfold CacheManager.freshData at hfresh
    unfold CacheManager.getModel CacheManager.getModelFallback
    cases hl : lookupA kv (IDBKey.str ("model:" ++ url)) with
    | none => simp [hcs]
    | some v =>
      rw [hl] at hfresh
      cases v with
      | modelEntry data ts =>
        by_cases hage : ageInDays now ts < 7
        · simp [if_pos hage] at hfresh
        · simp [hage, hcs]
      | other t => simp [hcs]
  · intro hf
    subst hf
    simp [CacheManager.getModel]
  · intro hf hfresh
    unfold CacheManager.freshData at hfresh
    have hne : ¬ fail = GetFail.kvGet := by
      rcases hf with rfl | rfl <;> simp
    unfold CacheManager.getModel CacheManager.getModelFallback
    cases hl : lookupA kv (IDBKey.str ("model:" ++ url)) with
    | none => simp [hne, hf]
    | some v =>
      rw [hl] at hfresh
      cases v with
      | modelEntry data ts =>
        by_cases hage : ageInDays now ts < 7
        · simp [if_pos hage] at hfresh
        · simp [hne, hage, hf]
      | other t => simp [hne, hf]
  · intro d hf hfresh hcs
    unfold CacheManager.freshData at hfresh
    have hne : ¬ fail = GetFail.kvGet := by
      rcases hf with rfl | rfl <;> simp
    have hne2 : ¬ (fail = GetFail.csOpen ∨ fail = GetFail.csMatch) := by
      rcases hf with rfl | rfl <;> simp
    unfold CacheManager.getModel CacheManager.getModelFallback
    cases hl : lookupA kv (IDBKey.str ("model:" ++ url)) with
    | none => simp [hne, hne2, hcs, hf]
    | some v =>
      rw [hl] at hfresh
      cases v with
      | modelEntry data ts =>
        by_cases hage : ageInDays now ts < 7
        · simp [if_pos hage] at hfresh
        · simp [hne, hne2, hage, hcs, hf]
      | other t => simp [hne, hne2, hcs, hf]

/-- Witness for C5 at concrete stores: a fresh IndexedDB entry is served
directly, and on an IndexedDB miss the response-object store is served and
backfilled. -/
theorem C5_witness :
    CacheManager.getModel GetFail.ok 0
        [(IDBKey.str "model:u", IDBValue.modelEntry [9] 0)] [] "u"
      = (some [9], [(IDBKey.str "model:u", IDBValue.modelEntry [9] 0)])
  ∧ CacheManager.getModel GetFail.ok 0 [] [("v", [5])] "v"
      = (some [5], [(IDBKey.str "model:v", IDBValue.modelEntry [5] 0)]) := by
  constructor
  · refine (C5_getModel_spec GetFail.ok 0
      [(IDBKey.str "model:u", IDBValue.modelEntry [9] 0)] [] "u").1 [9] ?_
    show CacheManager.freshData 0 [(IDBKey.str "model:u", IDBValue.modelEntry [9] 0)] "u"
      = some [9]
    unfold CacheManager.freshData
    rw [show ("model:" ++ "u" : String) = "model:u" from rfl]
    norm_num [lookupA, ageInDays, msPerDay]
  · exact (C5_getModel_spec GetFail.ok 0 [] [("v", [5])] "v").2.1 [5] rfl rfl

/-- Settlement state of one load promise held in the `loadedModels` map.  A
promise carries the url it was created for (the first caller's url) and a
numeric identity `pid`, so that "the same promise object" is expressible. -/
inductive PromState where
  | pending
  | resolved (obj : Nat)
  | rejected (err : String)
deriving DecidableEq, Repr

/-- One entry of `SceneManager.loadedModels`: the promise created by the
first `loadModel(id, url)` call for an id. -/
structure PromEntry where
  pid : Nat
  url : String
  state : PromState
deriving DecidableEq, Repr

/-- State of one `SceneManager` instance, restricted to the fields the model
lifecycle touches (src/unnamed/part_006 lines 64-75 and part_005): the three
registries `loadedModels`, `hasModelLoaded` and `models`, the scene graph
children (object identities), the fresh-identity counters, and the
disposal-relevant flags.  JS `Map`s are modelled as association lists with
unique keys; loaded scene objects are identified by the numbers the machine
allocates. -/
structure SM where
  loadedModels : List (String × PromEntry)
  hasModelLoaded : List (String × Bool)
  models : List (String × Nat)
  scene : List Nat
  nextPromise : Nat
  nextObj : Nat
  controlsPresent : Bool
  observerConnected : Bool
  rendererDisposed : Bool
  controlsDisposed : Bool
deriving DecidableEq, Repr

/-- A freshly constructed manager: empty registries, resize observer
connected, renderer and controls not disposed. -/
def SM.init (controls : Bool) : SM :=
  ⟨[], [], [], [], 0, 0, controls, true, false, false⟩

/-- What a `loadModel` call hands back to the caller: either a promise from
`loadedModels` (in-flight, resolved or rejected), or — on the
`hasModelLoaded && models.has(id)` path — the loaded object itself. -/
inductive LoadResult where
  | promise (e : PromEntry)
  | model (obj : Nat)
deriving DecidableEq, Repr

namespace SceneManager

/-- Embedding of the synchronous prefix of `SceneManager.loadModel`
(src/unnamed/part_006 lines 292-360, identically part_005 lines 981-1065):
if `loadedModels` has the id, return that promise unchanged; else if
`hasModelLoaded.get(id)` is true and `models` has the id, return the loaded
object; otherwise create a fresh pending promise recording the caller's url,
store it under the id and return it.  The url parameter of a deduplicated
call is ignored, exactly as in the source. -/
def loadModel (st : SM) (id url : String) : LoadResult × SM :=
  match lookupA st.loadedModels id with
  | some e => (LoadResult.promise e, st)
  | none =>
    match lookupA st.models id, (lookupA st.hasModelLoaded id).getD false with
    | some obj, true => (LoadResult.model obj, st)
    | _, _ =>
        let e : PromEntry := ⟨st.nextPromise, url, PromState.pending⟩
        (LoadResult.promise e,
          { st with
              loadedModels := setA st.loadedModels id e,
              nextPromise := st.nextPromise + 1 })

/-- Embedding of the load success callback (src/unnamed/part_006 lines
319-324 and 335-340): when the pending promise for the id completes,
`addModelToScene` registers a fresh object in `models` and adds it to the
scene graph, `hasModelLoaded` is set to true, and the promise resolves with
the object.  A settled promise never settles again; an id with no promise
has no callback, so both are no-ops. -/
def succeedLoad (st : SM) (id : String) : SM :=
  match lookupA st.loadedModels id with
  | some e =>
      match e.state with
      | PromState.pending =>
          let obj := st.nextObj
          { st with
              models := setA st.models id obj,
              scene := obj :: st.scene,
              hasModelLoaded := setA st.hasModelLoaded id true,
              loadedModels := setA st.loadedModels id ⟨e.pid, e.url, PromState.resolved obj⟩,
              nextObj := st.nextObj + 1 }
      | _ => st
  | none => st

/-- Embedding of the load failure path (src/unnamed/part_006 lines 325-327,
349-351 and 353-355): the pending promise for the id is rejected with the
underlying error.  No registry entry is removed: `loadedModels` keeps the
id mapped to the now-rejected promise. -/
def failLoad (st : SM) (id err : String) : SM :=
  match lookupA st.loadedModels id with
  | some e =>
      match e.state with
      | PromState.pending =>
          { st with
              loadedModels := setA st.loadedModels id ⟨e.pid, e.url, PromState.rejected err⟩ }
      | _ => st
  | none => st

/-- Embedding of `SceneManager.hasModel` (src/unnamed/part_006 lines 367-369,
part_005 lines 1072-1074): `this.hasModelLoaded.get(id) || false`. -/
def hasModel (st : SM) (id : String) : Bool :=
  (lookupA st.hasModelLoaded id).getD false

/-- Embedding of `SceneManager.getModel` (src/unnamed/part_005 lines
1157-1159): `this.models.get(id)`. -/
def getModel (st : SM) (id : String) : Option Nat :=
  lookupA st.models id

/-- Embedding of `SceneManager.dispose` (src/unnamed/part_005 lines
1265-1270): disconnect the resize observer, dispose the renderer, remove
every object of `models` from the scene graph children, dispose the controls
when present.  None of the three registries is touched. -/
def dispose (st : SM) : SM :=
  { st with
      observerConnected := false,
      rendererDisposed := true,
      scene := st.models.foldl (fun acc p => acc.filter (fun o => decide (o ≠ p.2))) st.scene,
      controlsDisposed := st.controlsDisposed || st.controlsPresent }

end SceneManager

/-- Event-loop steps of the load lifecycle: a `loadModel` call, or the
settlement of the in-flight load of an id (success or failure).  A list of
these steps is one cooperative single-threaded schedule, which is how the
JS event loop interleaves concurrent loads. -/
inductive Op where
  | load (id url : String)
  | succeed (id : String)
  | fail (id err : String)
deriving DecidableEq, Repr

/-- Applies one lifecycle step to the manager state. -/
def SceneManager.step (st : SM) : Op → SM
  | Op.load id url => (SceneManager.loadModel st id url).2
  | Op.succeed id => SceneManager.succeedLoad st id
  | Op.fail id err => SceneManager.failLoad st id err

/-- Runs a schedule of lifecycle steps from a freshly constructed manager
without controls. -/
def SceneManager.run (ops : List Op) : SM :=
  ops.foldl SceneManager.step (SM.init false)

/-- Registry invariant: the `hasModelLoaded` flag of an id is true exactly
when the promise held for that id in `loadedModels` has resolved. -/
def RegInv (st : SM) : Prop :=
  ∀ id, SceneManager.hasModel st id = true ↔
    ∃ e obj, lookupA st.loadedModels id = some e ∧ e.state = PromState.resolved obj

theorem regInv_init (c : Bool) : RegInv (SM.init c) := by
  intro id
  simp [SceneManager.hasModel, SM.init, lookupA]

theorem regInv_load (st : SM) (id0 url : String) (h : RegInv st) :
    RegInv (SceneManager.loadModel st id0 url).2 := by
  unfold SceneManager.loadModel
  cases hl : lookupA st.loadedModels id0 with
  | some e => exact h
  | none =>
    rcases hm : lookupA st.models id0 with _ | obj
    · intro id
      by_cases hid : id = id0
      · subst hid
        rw [SceneManager.hasModel]
        show (lookupA st.hasModelLoaded id).getD false = true ↔ _
        rw [lookupA_setA_self]
        constructor
        · intro ht
          obtain ⟨e2, obj2, hl2, _⟩ := (h id).mp ht
          rw [hl] at hl2
          cases hl2
        · rintro ⟨e2, obj2, he2, hres⟩
          injection he2 with he2
          subst he2
          cases hres
      · rw [SceneManager.hasModel]
        show (lookupA st.hasModelLoaded id).getD false = true ↔ _
        rw [lookupA_setA_ne _ _ _ _ hid]
        exact h id
    · cases hb : (lookupA st.hasModelLoaded id0).getD false
      · intro id
        by_cases hid : id = id0
        · subst hid
          rw [SceneManager.hasModel]
          show (lookupA st.hasModelLoaded id).getD false = true ↔ _
          rw [lookupA_setA_self]
          constructor
          · intro ht
            rw [ht] at hb
            cases hb
          · rintro ⟨e2, obj2, he2, hres⟩
            injection he2 with he2
            subst he2
            cases hres
        · rw [SceneManager.hasModel]
          show (lookupA st.hasModelLoaded id).getD false = true ↔ _
          rw [lookupA_setA_ne _ _ _ _ hid]
          exact h id
      · exact h

theorem regInv_succeed (st : SM) (id0 : String) (h : RegInv st) :
    RegInv (SceneManager.succeedLoad st id0) := by
  unfold SceneManager.succeedLoad
  cases hl : lookupA st.loadedModels id0 with
  | none => exact h
  | some e =>
    obtain ⟨pid0, url0, st0⟩ := e
    cases st0 with
    | pending =>
      intro id
      by_cases hid : id = id0
      · subst hid
        show (lookupA (setA st.hasModelLoaded id true) id).getD false = true ↔ _
        rw [lookupA_setA_self, lookupA_setA_self]
        simp
      · show (lookupA (setA st.hasModelLoaded id0 true) id).getD false = true ↔ _
        rw [lookupA_setA_ne _ _ _ _ hid, lookupA_setA_ne _ _ _ _ hid]
        exact h id
    | resolved obj => exact h
    | rejected err => exact h

theorem regInv_fail (st : SM) (id0 err : String) (h : RegInv st) :
    RegInv (SceneManager.failLoad st id0 err) := by
  unfold SceneManager.failLoad
  cases hl : lookupA st.loadedModels id0 with
  | none => exact h
  | some e =>
    obtain ⟨pid0, url0, st0⟩ := e
    cases st0 with
    | pending =>
      intro id
      by_cases hid : id = id0
      · subst hid
        show (lookupA st.hasModelLoaded id).getD false = true ↔ _
        rw [lookupA_setA_self]
        constructor
        · intro ht
          obtain ⟨e2, obj2, hl2, hres⟩ := (h id).mp ht
          rw [hl] at hl2
          injection hl2 with he2
          subst he2
          cases hres
        · rintro ⟨e2, obj2, he2, hres⟩
          injection he2 with he2
          subst he2
          cases hres
      · show (lookupA st.hasModelLoaded id).getD false = true ↔ _
        rw [lookupA_setA_ne _ _ _ _ hid]
        exact h id
    | resolved obj => exact h
    | rejected e2 => exact h

theorem regInv_step (st : SM) (op : Op) (h : RegInv st) :
    RegInv (SceneManager.step st op) := by
  cases op with
  | load id url => exact regInv_load st id url h
  | succeed id => exact regInv_succeed st id h
  | fail id err => exact regInv_fail st id err h

theorem regInv_run (ops : List Op) : RegInv (SceneManager.run ops) := by
  have haux : ∀ (l : List Op) (st : SM), RegInv st →
      RegInv (l.foldl SceneManager.step st) := by
    intro l
    induction l with
    | nil => exact fun st h => h
    | cons op rest ih =>
      intro st h
      exact ih _ (regInv_step st op h)
  exact haux ops _ (regInv_init false)

/-- C8: `hasModel(id)` is true exactly when the load for the id has resolved
successfully; while the load is in flight and after it has failed,
`hasModel(id)` is false, even though `loadModel(id, url)` still returns the
cached in-flight or rejected promise unchanged. -/
theorem C8_hasModel_only_after_success (ops : List Op) (id : String) :
    (SceneManager.hasModel (SceneManager.run ops) id = true ↔
        ∃ e obj, lookupA (SceneManager.run ops).loadedModels id = some e ∧
          e.state = PromState.resolved obj)
  ∧ (∀ (e : PromEntry) (url : String),
        lookupA (SceneManager.run ops).loadedModels id = some e →
        e.state = PromState.pending ∨ (∃ err, e.state = PromState.rejected err) →
        SceneManager.hasModel (SceneManager.run ops) id = false ∧
          SceneManager.loadModel (SceneManager.run ops) id url =
            (LoadResult.promise e, SceneManager.run ops)) := by
  have hinv := regInv_run ops
  refine ⟨hinv id, ?_⟩
  intro e url hl hst
  have hfalse : SceneManager.hasModel (SceneManager.run ops) id = false := by
    rcases Bool.eq_false_or_eq_true (SceneManager.hasModel (SceneManager.run ops) id)
      with ht | hf
    case inr => exact hf
    case inl =>
      obtain ⟨e2, obj2, hl2, hres⟩ := (hinv id).mp ht
      rw [hl] at hl2
      injection hl2 with he2
      subst he2
      rcases hst with hp | ⟨err, hr⟩
      · rw [hp] at hres
        cases hres
      · rw [hr] at hres
        cases hres
  refine ⟨hfalse, ?_⟩
  unfold SceneManager.loadModel
  rw [hl]

/-- Witness for C8: after one load step, the load for "m" is in flight, so
`hasModel` is false while `loadModel` returns the pending promise. -/
theorem C8_witness :
    SceneManager.hasModel (SceneManager.run [Op.load "m" "u"]) "m" = false ∧
      SceneManager.loadModel (SceneManager.run [Op.load "m" "u"]) "m" "u2" =
        (LoadResult.promise ⟨0, "u", PromState.pending⟩, SceneManager.run [Op.load "m" "u"]) :=
  (C8_hasModel_only_after_success [Op.load "m" "u"] "m").2
    ⟨0, "u", PromState.pending⟩ "u2" rfl (Or.inl rfl)

/-- C2: load de-duplication is keyed by id.  Whenever `loadedModels` holds a
promise for the id — in flight or settled — a `loadModel` call with ANY url
returns exactly that promise and leaves the state unchanged, starting no new
network or parse work.  A first call on an unknown id creates one pending
promise recording the first url; a second call, even with a different url,
returns that same promise (same identity, same first url) with the state
unchanged. -/
theorem C2_load_dedup_by_id (st : SM) (id : String) :
    (∀ (e : PromEntry) (url2 : String), lookupA st.loadedModels id = some e →
        SceneManager.loadModel st id url2 = (LoadResult.promise e, st))
  ∧ (∀ url1 url2 : String, lookupA st.loadedModels id = none →
        SceneManager.hasModel st id = false →
        ∃ e : PromEntry, e.url = url1 ∧ e.state = PromState.pending ∧
          (SceneManager.loadModel st id url1).1 = LoadResult.promise e ∧
          lookupA (SceneManager.loadModel st id url1).2.loadedModels id = some e ∧
          SceneManager.loadModel (SceneManager.loadModel st id url1).2 id url2 =
            (LoadResult.promise e, (SceneManager.loadModel st id url1).2)) := by
  constructor
  · intro e url2 h
    unfold SceneManager.loadModel
    rw [h]
  · intro url1 url2 hl hb
    have hb2 : (lookupA st.hasModelLoaded id).getD false = false := hb
    have heq : SceneManager.loadModel st id url1 =
        (LoadResult.promise ⟨st.nextPromise, url1, PromState.pending⟩,
          { st with
              loadedModels := setA st.loadedModels id ⟨st.nextPromise, url1, PromState.pending⟩,
              nextPromise := st.nextPromise + 1 }) := by
      unfold SceneManager.loadModel
      rw [hl]
      rcases hm : lookupA st.models id with _ | obj
      · rfl
      · rw [hb2]
    refine ⟨⟨st.nextPromise, url1, PromState.pending⟩, rfl, rfl, ?_, ?_, ?_⟩
    · rw [heq]
    · rw [heq]
      exact lookupA_setA_self _ _ _
    · rw [heq]
      unfold SceneManager.loadModel
      rw [lookupA_setA_self]

/-- Concrete manager state holding one in-flight promise for id "m" created
from url "a". -/
def smExample : SM :=
  { SM.init false with loadedModels := [("m", ⟨0, "a", PromState.pending⟩)] }

/-- Witness for C2: a second `loadModel` call for "m" with the different url
"b" returns the promise created for url "a" and changes nothing. -/
theorem C2_witness :
    SceneManager.loadModel smExample "m" "b" =
      (LoadResult.promise ⟨0, "a", PromState.pending⟩, smExample) :=
  (C2_load_dedup_by_id smExample "m").1 ⟨0, "a", PromState.pending⟩ "b" rfl

theorem notMem_foldl_filter (ms : List (String × Nat)) :
    ∀ (scene : List Nat) (o : Nat),
      o ∈ ms.map Prod.snd ∨ o ∉ scene →
      o ∉ ms.foldl (fun acc p => acc.filter (fun x => decide (x ≠ p.2))) scene := by
  induction ms with
  | nil =>
    intro scene o h hmem
    rcases h with h | h
    · simp at h
    · exact h hmem
  | cons p rest ih =>
    intro scene o h
    rw [List.foldl_cons]
    apply ih
    rcases h with h | h
    · rw [List.map_cons] at h
      rcases List.mem_cons.mp h with h2 | h2
      · right
        intro hmem
        have := (List.mem_filter.mp hmem).2
        rw [decide_eq_true_iff] at this
        exact this h2
      · left
        exact h2
    · right
      intro hmem
      exact h (List.mem_filter.mp hmem).1

/-- C10: `dispose` disconnects the resize observer, disposes the renderer
and, when present, the controls, and removes every loaded model from the
scene graph; but it clears none of the registries, so `getModel` and
`hasModel` answer exactly as before the dispose. -/
theorem C10_dispose_keeps_registries (st : SM) :
    (SceneManager.dispose st).observerConnected = false
  ∧ (SceneManager.dispose st).rendererDisposed = true
  ∧ (st.controlsPresent = true → (SceneManager.dispose st).controlsDisposed = true)
  ∧ (∀ (id : String) (obj : Nat), lookupA st.models id = some obj →
        obj ∉ (SceneManager.dispose st).scene)
  ∧ (∀ id : String, SceneManager.getModel (SceneManager.dispose st) id =
        SceneManager.getModel st id)
  ∧ (∀ id : String, SceneManager.hasModel (SceneManager.dispose st) id =
        SceneManager.hasModel st id)
  ∧ (SceneManager.dispose st).loadedModels = st.loadedModels := by
  refine ⟨rfl, rfl, ?_, ?_, fun _ => rfl, fun _ => rfl, rfl⟩
  · intro hc
    show (st.controlsDisposed || st.controlsPresent) = true
    rw [hc, Bool.or_true]
  · intro id obj hobj
    apply notMem_foldl_filter
    left
    exact List.mem_map.mpr ⟨(id, obj), mem_of_lookupA_eq_some hobj, rfl⟩

/-- Concrete manager state with controls, one loaded model "m" as object 0
in the scene next to an unrelated scene child 5. -/
def smExample2 : SM :=
  { SM.init true with
      models := [("m", 0)], scene := [0, 5], hasModelLoaded := [("m", true)] }

/-- Witness for C10 at a concrete state: after dispose, object 0 has left
the scene graph while `hasModel "m"` is unchanged (still true). -/
theorem C10_witness :
    0 ∉ (SceneManager.dispose smExample2).scene
  ∧ SceneManager.hasModel (SceneManager.dispose smExample2) "m" =
      SceneManager.hasModel smExample2 "m" :=
  ⟨(C10_dispose_keeps_registries smExample2).2.2.2.1 "m" 0 rfl,
   (C10_dispose_keeps_registries smExample2).2.2.2.2.2.1 "m"⟩

/-- The load status union reported through the onStateChange callback
(src/unnamed/part_005 line 485). -/
inductive LoadStatus where
  | checking_cache
  | cache_hit
  | cache_miss
  | downloading
  | parsing
  | caching
  | adding_to_scene
  | model_ready
  | error
deriving DecidableEq, Repr

/-- Observable events of one execution of the promise body of
`SceneManager.loadModel`: status callbacks, network request starts and
completions, GLTF parses, scene insertion, cache writes and promise
settlement. -/
inductive LoadEv where
  | cacheRead (url : String)
  | status (s : LoadStatus)
  | fetchStart (url : String)
  | fetchDone (url : String)
  | parseRun (url : String)
  | addScene (url : String)
  | cacheWrite (url : String)
  | resolveP (url : String)
  | rejectP (url : String)
deriving DecidableEq, Repr

/-- Event trace of the promise body of `loadModel` for one fresh load
(src/unnamed/part_005 lines 999-1061; identically src/unnamed/part_024 lines
451-526), parameterized by whether `CacheManager.getModel` hits, whether the
network requests for the url succeed, and whether the GLTF parse succeeds.
Cache-hit branch (lines 1003-1022): parse the cached bytes; the parse error
callback at lines 1019-1021 only rejects, it reports no status.  Cache-miss
branch (lines 1024-1055): `loader.load(url, ...)` starts the first network
request for the url; the body then continues synchronously — in the same
event-loop slice — reporting `checking_cache` and calling `fetch(url)`,
which starts a second network request for the same url before the first can
complete (JS run-to-completion: no completion callback can run inside this
slice, so positions 0-3 of the trace are schedule-independent).  After the
downloads complete, the loader parses and its callbacks fire, then the body
finishes `saveModel` and reports `caching`; this ordering of the two
completion strands is one admissible schedule.  On a network failure both
strands reject; only the body's catch (lines 1056-1060) reports the `error`
status, the loader error callback (lines 1046-1048) rejects silently. -/
def SceneManager.loadBody (cacheHit fetchOk parseOk : Bool) (url : String) : List LoadEv :=
  if cacheHit then
    LoadEv.cacheRead url :: LoadEv.status LoadStatus.cache_hit :: LoadEv.parseRun url ::
      (if parseOk then
        [LoadEv.status LoadStatus.parsing, LoadEv.status LoadStatus.adding_to_scene,
         LoadEv.addScene url, LoadEv.status LoadStatus.model_ready, LoadEv.resolveP url]
      else [LoadEv.rejectP url])
  else
    LoadEv.cacheRead url :: LoadEv.fetchStart url :: LoadEv.status LoadStatus.checking_cache ::
      LoadEv.fetchStart url ::
      (if fetchOk then
        (LoadEv.fetchDone url :: LoadEv.parseRun url ::
          (if parseOk then
            [LoadEv.status LoadStatus.parsing, LoadEv.status LoadStatus.adding_to_scene,
             LoadEv.addScene url, LoadEv.status LoadStatus.model_ready, LoadEv.resolveP url]
          else [LoadEv.rejectP url])) ++
        [LoadEv.fetchDone url, LoadEv.cacheWrite url, LoadEv.status LoadStatus.caching]
      else [LoadEv.rejectP url, LoadEv.status LoadStatus.error, LoadEv.rejectP url])

/-- C3 counterexample: a cache-missing load of url "u" initiates two network
fetches of "u", not exactly one as claimed. -/
theorem C3_counterexample :
    (SceneManager.loadBody false true true "u").count (LoadEv.fetchStart "u") = 2
  ∧ (SceneManager.loadBody false true true "u").count (LoadEv.fetchStart "u") ≠ 1 := by
  constructor <;> decide

/-- C3 (amended): for a single cache-missing `loadModel` call, exactly two
network fetches of the url are initiated — the GLTF loader's own download
and the separate fetch used to populate the cache — and the second starts
before the first completes, so both are in flight together (both starts lie
in the schedule-independent synchronous prefix of four events, which
contains no completion); at most one parse runs (exactly one when the
download succeeds); a cache-hit load initiates no network fetch. -/
theorem C3_miss_starts_two_fetches (fetchOk parseOk : Bool) (url : String) :
    (SceneManager.loadBody false fetchOk parseOk url).count (LoadEv.fetchStart url) = 2
  ∧ ((SceneManager.loadBody false fetchOk parseOk url).take 4).count (LoadEv.fetchStart url) = 2
  ∧ (∀ u : String, LoadEv.fetchDone u ∉ (SceneManager.loadBody false fetchOk parseOk url).take 4)
  ∧ (SceneManager.loadBody false fetchOk parseOk url).count (LoadEv.parseRun url) =
      (if fetchOk then 1 else 0)
  ∧ (SceneManager.loadBody true fetchOk parseOk url).count (LoadEv.fetchStart url) = 0 := by
  cases fetchOk <;> cases parseOk <;>
    simp [SceneManager.loadBody, List.count_cons, List.count_append, List.count_nil]

/-- C4 counterexample: after the load for "m" fails, a fresh
`loadModel("m", "u")` call does NOT re-enter loading — it returns the same,
already rejected promise (promise 0, still recording the original url) and
the state is unchanged: no new promise is allocated (`nextPromise` is still
1) and no new network or parse work starts. -/
theorem C4_counterexample :
    SceneManager.loadModel
        (SceneManager.run [Op.load "m" "u", Op.fail "m" "boom"]) "m" "u" =
      (LoadResult.promise ⟨0, "u", PromState.rejected "boom"⟩,
        SceneManager.run [Op.load "m" "u", Op.fail "m" "boom"])
  ∧ (SceneManager.run [Op.load "m" "u", Op.fail "m" "boom"]).nextPromise = 1 := by
  constructor <;> rfl

/-- C4 (amended): when the in-flight load for an id fails, its promise is
rejected with the underlying error and `hasModel` stays as it was (there is
no per-id error state); the id remains mapped to the rejected promise in
`loadedModels`, so a later `loadModel(id, url)` call returns that same
rejected promise and performs no new load attempt — retry is not possible on
the same manager.  The `error` status is only emitted for a failure raised
inside the promise body (such as a network failure, reported through the
cache-population fetch); a parse failure on the cache-hit path rejects the
promise without emitting the `error` status. -/
theorem C4_failed_load_no_retry (st : SM) (id err url : String) (e : PromEntry)
    (h : lookupA st.loadedModels id = some e) (hp : e.state = PromState.pending) :
    lookupA (SceneManager.failLoad st id err).loadedModels id =
        some ⟨e.pid, e.url, PromState.rejected err⟩
  ∧ SceneManager.loadModel (SceneManager.failLoad st id err) id url =
      (LoadResult.promise ⟨e.pid, e.url, PromState.rejected err⟩,
        SceneManager.failLoad st id err)
  ∧ SceneManager.hasModel (SceneManager.failLoad st id err) id =
      SceneManager.hasModel st id
  ∧ LoadEv.status LoadStatus.error ∈ SceneManager.loadBody false false true url
  ∧ LoadEv.status LoadStatus.error ∉ SceneManager.loadBody true true false url := by
  obtain ⟨pid0, url0, st0⟩ := e
  cases st0 with
  | pending =>
    have heq : SceneManager.failLoad st id err =
        { st with
            loadedModels :=
              setA st.loadedModels id ⟨pid0, url0, PromState.rejected err⟩ } := by
      unfold SceneManager.failLoad
      rw [h]
    have hlook : lookupA (SceneManager.failLoad st id err).loadedModels id =
        some ⟨pid0, url0, PromState.rejected err⟩ := by
      rw [heq]
      exact lookupA_setA_self _ _ _
    refine ⟨hlook, ?_, ?_, ?_, ?_⟩
    · unfold SceneManager.loadModel
      rw [hlook]
    · rw [heq]
      rfl
    · simp [SceneManager.loadBody]
    · simp [SceneManager.loadBody]
  | resolved obj => cases hp
  | rejected e2 => cases hp

/-- Witness for C4 at a concrete state: failing the in-flight load of "m"
leaves "m" mapped to the rejected promise. -/
theorem C4_witness :
    lookupA (SceneManager.failLoad smExample "m" "boom").loadedModels "m" =
      some ⟨0, "a", PromState.rejected "boom"⟩ :=
  (C4_failed_load_no_retry smExample "m" "boom" "b" ⟨0, "a", PromState.pending⟩ rfl rfl).1

/-- Safety margin multiplier `MARGIN` of the camera framing computation
(src/unnamed/part_006 line 75): `private MARGIN: number = 0.8`. -/
noncomputable def SceneManager.MARGIN : ℝ := 0.8

/-- Vertical field of view in radians,
`this.camera.fov * (Math.PI / 180)` (src/unnamed/part_006 line 400). -/
noncomputable def SceneManager.fovRadOf (fovDeg : ℝ) : ℝ := fovDeg * (Real.pi / 180)

/-- Horizontal field of view,
`2 * Math.atan(Math.tan(fovRad / 2) * aspect)` (src/unnamed/part_006 line 404). -/
noncomputable def SceneManager.horizontalFovOf (fovDeg aspect : ℝ) : ℝ :=
  2 * Real.arctan (Real.tan (SceneManager.fovRadOf fovDeg / 2) * aspect)

/-- Camera distance computed by `addModelToScene` (src/unnamed/part_006
lines 407-409): `max(radius / tan(fovRad/2), radius / tan(horizontalFov/2)) * MARGIN`. -/
noncomputable def SceneManager.cameraDistance (radius fovDeg aspect : ℝ) : ℝ :=
  max (radius / Real.tan (SceneManager.fovRadOf fovDeg / 2))
      (radius / Real.tan (SceneManager.horizontalFovOf fovDeg aspect / 2)) * SceneManager.MARGIN

/-- Camera position set by `addModelToScene` (src/unnamed/part_006 line 412):
`this.camera.position.set(0, 0, cameraDistance)` — on the view axis. -/
noncomputable def SceneManager.cameraPositionAfterAdd (radius fovDeg aspect : ℝ) : ℝ × ℝ × ℝ :=
  (0, 0, SceneManager.cameraDistance radius fovDeg aspect)

/-- C1 counterexample: for a unit bounding sphere at fov 90°, aspect 1, the
minimal full-visibility distance is 1, but the code positions the camera at
distance 0.8 < 1 — the multiplier applied to the minimal distance is
`MARGIN = 0.8`, which is not strictly greater than 1.0. -/
theorem C1_counterexample :
    SceneManager.cameraDistance 1 90 1 = 0.8
  ∧ SceneManager.cameraDistance 1 90 1 < 1
  ∧ ¬ (1 < SceneManager.MARGIN) := by
  have h4 : SceneManager.fovRadOf 90 / 2 = Real.pi / 4 := by
    unfold SceneManager.fovRadOf
    ring
  have htan : Real.tan (SceneManager.fovRadOf 90 / 2) = 1 := by
    rw [h4, Real.tan_pi_div_four]
  have hh : SceneManager.horizontalFovOf 90 1 / 2 = Real.pi / 4 := by
    unfold SceneManager.horizontalFovOf
    rw [htan, mul_one, Real.arctan_one]
    ring
  have hdist : SceneManager.cameraDistance 1 90 1 = 0.8 := by
    unfold SceneManager.cameraDistance
    rw [htan, hh, Real.tan_pi_div_four]
    norm_num [SceneManager.MARGIN]
  refine ⟨hdist, ?_, ?_⟩
  · rw [hdist]
    norm_num
  · unfold SceneManager.MARGIN
    norm_num

/-- C1 (amended): for every model added to the scene the camera is placed on
the view axis at distance
max(radius / tan(fov/2), radius / tan(atan(tan(fov/2) * aspect))) * MARGIN —
equivalently max(radius / tan(fov/2), radius / (tan(fov/2) * aspect)) *
MARGIN — where the multiplier MARGIN equals 0.8 and is strictly LESS than
1.0, so the camera sits closer than the minimal distance that shows the full
bounding sphere. -/
theorem C1_camera_distance_formula (radius fovDeg aspect : ℝ) :
    SceneManager.cameraPositionAfterAdd radius fovDeg aspect =
      (0, 0,
        max (radius / Real.tan (SceneManager.fovRadOf fovDeg / 2))
          (radius /
            Real.tan (Real.arctan (Real.tan (SceneManager.fovRadOf fovDeg / 2) * aspect)))
          * SceneManager.MARGIN)
  ∧ SceneManager.cameraDistance radius fovDeg aspect =
      max (radius / Real.tan (SceneManager.fovRadOf fovDeg / 2))
        (radius / (Real.tan (SceneManager.fovRadOf fovDeg / 2) * aspect))
        * SceneManager.MARGIN
  ∧ SceneManager.MARGIN = 0.8 ∧ SceneManager.MARGIN < 1 := by
  have hhalf : ∀ x : ℝ, 2 * x / 2 = x := fun x => by ring
  refine ⟨?_, ?_, rfl, ?_⟩
  · unfold SceneManager.cameraPositionAfterAdd SceneManager.cameraDistance
      SceneManager.horizontalFovOf
    rw [hhalf]
  · unfold SceneManager.cameraDistance SceneManager.horizontalFovOf
    rw [hhalf, Real.tan_arctan]
  · unfold SceneManager.MARGIN
    norm_num

/-- Visibility and material opacity of one model during a crossfade
(`model.visible` and the opacity applied to every mesh material by the
traverse). -/
structure FadeModel where
  visible : Bool
  opacity : ℚ
deriving DecidableEq, Repr

/-- State touched by `transitionToModel` (src/unnamed/part_024 lines
322-377): fade state of the outgoing and incoming models, the active model
id, the model the pointer controls are bound to, the stored transition
progress, and whether this frame triggered the camera animation. -/
structure TransState where
  startModel : FadeModel
  targetModel : FadeModel
  activeModelId : Option String
  controlsModel : Option String
  transitionProgress : ℚ
  cameraAnimStarted : Bool
deriving DecidableEq, Repr

/-- One invocation of the per-frame `animateTransition` body
(src/unnamed/part_024 lines 329-375) with elapsed time `elapsed` and
`this.transitionDuration = duration` (times in ms, modelled as rationals):
`progress = min(elapsed / duration, 1)`; the outgoing model is visible while
progress < 0.8 with opacity 1 - progress (lines 333-341), the incoming model
is visible once progress > 0.2 with opacity progress (lines 342-348); past
progress 0.5, while the active id still differs from the target, the camera
animation toward the incoming pose is triggered (lines 350-354); when
progress reaches 1 the outgoing model is hidden, the incoming model is shown
with opacity reset to 1, the active id becomes the target, the stored
progress resets and the pointer controls are rebound to the target model via
`this.controls?.setModel(targetModel)` (lines 358-374). -/
def SceneManager.transitionFrame (targetId : String) (duration elapsed : ℚ)
    (st : TransState) : TransState :=
  let p := min (elapsed / duration) 1
  let sm : FadeModel := ⟨decide (p < 0.8), 1 - p⟩
  let tm : FadeModel := ⟨decide (p > 0.2), p⟩
  let cam := decide (p > 0.5) && decide (st.activeModelId ≠ some targetId)
  if p < 1 then
    { st with
        startModel := sm, targetModel := tm,
        transitionProgress := p, cameraAnimStarted := cam }
  else
    { st with
        startModel := ⟨false, sm.opacity⟩,
        targetModel := ⟨true, 1⟩,
        activeModelId := some targetId,
        controlsModel := some targetId,
        transitionProgress := 0,
        cameraAnimStarted := cam }

/-- C6: at every animation frame of a transition, with
p = min(elapsed/duration, 1): the outgoing model is visible iff p < 0.8 with
opacity 1 - p (non-increasing in elapsed time), the incoming model is
visible iff p > 0.2 with opacity p (non-decreasing in elapsed time); and
when p reaches 1, the outgoing model is hidden, the incoming model is
visible with opacity reset to 1, the active id becomes the target and the
pointer controls are rebound to the target. -/
theorem C6_transition_crossfade (targetId : String) (duration elapsed e1 e2 : ℚ)
    (st : TransState) (hd : 0 < duration) (h12 : e1 ≤ e2) :
    ((SceneManager.transitionFrame targetId duration elapsed st).startModel.visible = true ↔
        min (elapsed / duration) 1 < 0.8)
  ∧ (SceneManager.transitionFrame targetId duration elapsed st).startModel.opacity =
      1 - min (elapsed / duration) 1
  ∧ ((SceneManager.transitionFrame targetId duration elapsed st).targetModel.visible = true ↔
        min (elapsed / duration) 1 > 0.2)
  ∧ (SceneManager.transitionFrame targetId duration elapsed st).targetModel.opacity =
      min (elapsed / duration) 1
  ∧ (SceneManager.transitionFrame targetId duration e2 st).startModel.opacity ≤
      (SceneManager.transitionFrame targetId duration e1 st).startModel.opacity
  ∧ (SceneManager.transitionFrame targetId duration e1 st).targetModel.opacity ≤
      (SceneManager.transitionFrame targetId duration e2 st).targetModel.opacity
  ∧ (duration ≤ elapsed →
        (SceneManager.transitionFrame targetId duration elapsed st).startModel.visible = false
      ∧ (SceneManager.transitionFrame targetId duration elapsed st).targetModel = ⟨true, 1⟩
      ∧ (SceneManager.transitionFrame targetId duration elapsed st).activeModelId =
          some targetId
      ∧ (SceneManager.transitionFrame targetId duration elapsed st).controlsModel =
          some targetId) := by
  have hsop : ∀ e : ℚ,
      (SceneManager.transitionFrame targetId duration e st).startModel.opacity =
        1 - min (e / duration) 1 := by
    intro e
    by_cases hp : min (e / duration) 1 < 1
    · simp only [SceneManager.transitionFrame, if_pos hp]
    · simp only [SceneManager.transitionFrame, if_neg hp]
  have htop : ∀ e : ℚ,
      (SceneManager.transitionFrame targetId duration e st).targetModel.opacity =
        min (e / duration) 1 := by
    intro e
    by_cases hp : min (e / duration) 1 < 1
    · simp only [SceneManager.transitionFrame, if_pos hp]
    · have hpe : min (e / duration) 1 = 1 :=
        le_antisymm (min_le_right _ _) (not_lt.mp hp)
      simp only [SceneManager.transitionFrame, if_neg hp]
      exact hpe.symm
  have hmin : min (e1 / duration) 1 ≤ min (e2 / duration) 1 := by
    gcongr
  refine ⟨?_, hsop elapsed, ?_, htop elapsed, ?_, ?_, ?_⟩
  · by_cases hp : min (elapsed / duration) 1 < 1
    · simp only [SceneManager.transitionFrame, if_pos hp]
      exact decide_eq_true_iff
    · have hpe : min (elapsed / duration) 1 = 1 :=
        le_antisymm (min_le_right _ _) (not_lt.mp hp)
      simp only [SceneManager.transitionFrame, if_neg hp]
      rw [hpe]
      norm_num
  · by_cases hp : min (elapsed / duration) 1 < 1
    · simp only [SceneManager.transitionFrame, if_pos hp]
      exact decide_eq_true_iff
    · have hpe : min (elapsed / duration) 1 = 1 :=
        le_antisymm (min_le_right _ _) (not_lt.mp hp)
      simp only [SceneManager.transitionFrame, if_neg hp]
      rw [hpe]
      norm_num
  · rw [hsop e1, hsop e2]
    linarith [hmin]
  · rw [htop e1, htop e2]
    exact hmin
  · intro hde
    have h1le : (1 : ℚ) ≤ elapsed / duration := (one_le_div hd).mpr hde
    have hpe : min (elapsed / duration) 1 = 1 := min_eq_right h1le
    have hnp : ¬ min (elapsed / duration) 1 < 1 := by
      rw [hpe]
      exact lt_irrefl 1
    refine ⟨?_, ?_, ?_, ?_⟩ <;> simp only [SceneManager.transitionFrame, if_neg hnp]

/-- Concrete transition state used by the C6 witness: model "a" active and
fully visible, the incoming model hidden. -/
def trsExample : TransState :=
  ⟨⟨true, 1⟩, ⟨false, 0⟩, some "a", some "a", 0, false⟩

/-- Witness for C6 at a completed frame: with duration 1 and elapsed 1, the
frame hands activity and the pointer controls to the target model. -/
theorem C6_witness :
    (SceneManager.transitionFrame "b" 1 1 trsExample).activeModelId = some "b"
  ∧ (SceneManager.transitionFrame "b" 1 1 trsExample).controlsModel = some "b" :=
  ⟨((C6_transition_crossfade "b" 1 1 (1/4) (1/2) trsExample (by norm_num)
      (by norm_num)).2.2.2.2.2.2 (by norm_num)).2.2.1,
   ((C6_transition_crossfade "b" 1 1 (1/4) (1/2) trsExample (by norm_num)
      (by norm_num)).2.2.2.2.2.2 (by norm_num)).2.2.2⟩

/-- Euler rotation of the focused model (the x, y, z fields of the THREE
`Object3D.rotation` Euler triple). -/
structure Euler3 where
  x : ℝ
  y : ℝ
  z : ℝ

/-- Embedding of `OrbitControlsManager.handleModelRotation`
(src/unnamed/part_025 lines 350-357): delta = current pointer position minus
start pointer position; `rotation.y += delta.x * 0.005`,
`rotation.x += delta.y * 0.005`, then `rotation.x` is clamped through
`Math.max(-Math.PI / 2, Math.min(Math.PI / 2, rotation.x))`. -/
noncomputable def OrbitControlsManager.handleModelRotation
    (rot : Euler3) (currentPointer startPointer : ℝ × ℝ) : Euler3 :=
  let dx := currentPointer.1 - startPointer.1
  let dy := currentPointer.2 - startPointer.2
  let ry := rot.y + dx * 0.005
  let rx := rot.x + dy * 0.005
  ⟨max (-(Real.pi / 2)) (min (Real.pi / 2) rx), ry, rot.z⟩

/-- Folds a sequence of rotate-gesture steps — each a pair of current and
start pointer positions — through `handleModelRotation`, as successive
pointer-move events do. -/
noncomputable def OrbitControlsManager.applyRotations
    (rot : Euler3) (steps : List ((ℝ × ℝ) × (ℝ × ℝ))) : Euler3 :=
  steps.foldl (fun r s => OrbitControlsManager.handleModelRotation r s.1 s.2) rot

/-- C7: a single `handleModelRotation` step from ANY prior rotation and
pointer delta leaves `rotation.x` inside [-π/2, π/2], and therefore after
every nonempty sequence of rotate-gesture steps of arbitrary magnitude the
focused model's `rotation.x` lies within [-π/2, π/2]. -/
theorem C7_rotation_clamp (rot : Euler3) (cur stp : ℝ × ℝ) (init : Euler3)
    (steps : List ((ℝ × ℝ) × (ℝ × ℝ))) (hne : steps ≠ []) :
    (-(Real.pi / 2) ≤ (OrbitControlsManager.handleModelRotation rot cur stp).x
      ∧ (OrbitControlsManager.handleModelRotation rot cur stp).x ≤ Real.pi / 2)
  ∧ (-(Real.pi / 2) ≤ (OrbitControlsManager.applyRotations init steps).x
      ∧ (OrbitControlsManager.applyRotations init steps).x ≤ Real.pi / 2) := by
  have hstep : ∀ (r : Euler3) (c s : ℝ × ℝ),
      -(Real.pi / 2) ≤ (OrbitControlsManager.handleModelRotation r c s).x ∧
        (OrbitControlsManager.handleModelRotation r c s).x ≤ Real.pi / 2 := by
    intro r c s
    constructor
    · exact le_max_left _ _
    · apply max_le
      · linarith [Real.pi_pos]
      · exact min_le_left _ _
  have haux : ∀ (l : List ((ℝ × ℝ) × (ℝ × ℝ))), l ≠ [] → ∀ (r : Euler3),
      -(Real.pi / 2) ≤ (OrbitControlsManager.applyRotations r l).x ∧
        (OrbitControlsManager.applyRotations r l).x ≤ Real.pi / 2 := by
    intro l
    induction l with
    | nil => exact fun hr => absurd rfl hr
    | cons s rest ih =>
      intro _ r
      by_cases hrest : rest = []
      · subst hrest
        simpa [OrbitControlsManager.applyRotations] using hstep r s.1 s.2
      · have hrec := ih hrest (OrbitControlsManager.handleModelRotation r s.1 s.2)
        simpa [OrbitControlsManager.applyRotations] using hrec
  exact ⟨hstep rot cur stp, haux steps hne init⟩

/-- Witness for C7: one concrete rotate step from the origin state stays
inside the clamp range. -/
theorem C7_witness :
    -(Real.pi / 2) ≤ (OrbitControlsManager.applyRotations ⟨0, 0, 0⟩ [((1, 1), (0, 0))]).x
  ∧ (OrbitControlsManager.applyRotations ⟨0, 0, 0⟩ [((1, 1), (0, 0))]).x ≤ Real.pi / 2 :=
  (C7_rotation_clamp ⟨0, 0, 0⟩ (1, 1) (0, 0) ⟨0, 0, 0⟩ [((1, 1), (0, 0))] (by simp)).2

end Shared3D
